import Mathlib

/-!
Shallow embedding of src/server/controllers/index.js: Express request
handlers over a Mongoose document store holding Cat and Dog records.

The store is modelled as explicit state (a list of cats, a list of dogs,
and a clock supplying the createdDate timestamps that Mongoose's
Date.now default would supply).  Store availability is a boolean
parameter dbOk: when it is false, every query or save rejects, which is
the path the handlers' catch blocks (or the promise .catch) take.
Request-body fields are JavaScript values (absent, string, or number),
so that the handlers' truthiness checks (the `!req.body.x` tests) are
modelled faithfully.
-/

/-- A JavaScript value as it can appear in a parsed request body or query:
absent (undefined), a string, or a number (restricted to integers, which is
all the data model uses). -/
inductive JSVal where
  | undef : JSVal
  | str : String → JSVal
  | num : Int → JSVal
deriving Repr, DecidableEq

/-- JavaScript truthiness of a body field, as tested by the handlers'
guards such as `!req.body.firstname`: undefined is falsy, a string is
falsy exactly when empty, a number is falsy exactly when zero. -/
def JSVal.truthy : JSVal → Bool
  | JSVal.undef => false
  | JSVal.str s => s != ""
  | JSVal.num n => n != 0

/-- Decimal digits of a natural number accumulated most-significant-first;
fuel-indexed so the recursion is structural.  Models the number-to-string
conversion JavaScript template interpolation performs. -/
def natDecimalAux : Nat → Nat → List Char → List Char
  | 0, _, acc => acc
  | fuel + 1, n, acc =>
    if n < 10 then Nat.digitChar n :: acc
    else natDecimalAux fuel (n / 10) (Nat.digitChar (n % 10) :: acc)

/-- Decimal string of a natural number. -/
def natDecimal (n : Nat) : String :=
  String.mk (natDecimalAux (n + 1) n [])

/-- Decimal string of an integer, with a leading minus sign when negative. -/
def intDecimal (n : Int) : String :=
  if n < 0 then "-" ++ natDecimal (-n).toNat else natDecimal n.toNat

/-- String a JavaScript value interpolates to inside a template literal,
as in the handlers' backquoted name expressions. -/
def jsToString : JSVal → String
  | JSVal.undef => "undefined"
  | JSVal.str s => s
  | JSVal.num n => intDecimal n

/-- The Mongoose Number-schema cast applied when a body field is stored in
an integer column: a number is taken as is, a numeric string parses, and
anything else is a cast error (surfacing as a save failure). -/
def castInt : JSVal → Option Int
  | JSVal.undef => none
  | JSVal.str s => s.toInt?
  | JSVal.num n => some n

/-- A Cat document: name, bedsOwned, and the createdDate timestamp the
schema defaults to the creation time. -/
structure Cat where
  name : String
  bedsOwned : Int
  createdDate : Nat
deriving Repr, DecidableEq

/-- A Dog document: name, breed, and a mutable age. -/
structure Dog where
  name : String
  breed : String
  age : Int
deriving Repr, DecidableEq

/-- The document store's state: the Cat collection, the Dog collection, and
a strictly increasing clock stamping each new cat's createdDate. -/
structure StoreState where
  cats : List Cat
  dogs : List Dog
  clock : Nat
deriving Repr, DecidableEq

/-- An HTTP response as the handlers produce it: a JSON body with a status
code, or one of the rendered views with the data passed to the renderer. -/
inductive Response where
  | json (status : Nat) (body : List (String × JSVal))
  | renderIndex (status : Nat) (currentName : String)
  | renderCats (status : Nat) (cats : List Cat)
  | renderDogs (status : Nat) (dogs : List Dog)
  | renderPage (status : Nat) (view : String)
  | renderNotFound (status : Nat) (page : String)
deriving Repr, DecidableEq

/-- The store query findOne({}) sorted by createdDate descending: the first
document of maximal createdDate, or none when the collection is empty. -/
def mostRecentCat : List Cat → Option Cat
  | [] => none
  | c :: cs =>
    match mostRecentCat cs with
    | none => some c
    | some d => if d.createdDate > c.createdDate then some d else some c

/-- The store operation findOneAndUpdate({}, inc bedsOwned by 1) sorted by
createdDate descending with returnDocument after: atomically increments
bedsOwned on the document of maximal createdDate and returns that document
as updated together with the updated collection; none when empty. -/
def findOneAndUpdateBeds : List Cat → Option (Cat × List Cat)
  | [] => none
  | c :: cs =>
    match findOneAndUpdateBeds cs with
    | none => some ({ c with bedsOwned := c.bedsOwned + 1 }, [{ c with bedsOwned := c.bedsOwned + 1 }])
    | some (d, cs') =>
      if d.createdDate > c.createdDate then some (d, c :: cs')
      else some ({ c with bedsOwned := c.bedsOwned + 1 }, { c with bedsOwned := c.bedsOwned + 1 } :: cs)

/-- The dog-search store round trips fused: findOne({name}) takes the first
document whose name matches, its age is incremented in memory, and save
writes it back in place.  Returns the updated document and collection, or
none when no document matches. -/
def findAndAgeDog : List Dog → String → Option (Dog × List Dog)
  | [], _ => none
  | d :: ds, n =>
    if d.name == n then
      some ({ d with age := d.age + 1 }, { d with age := d.age + 1 } :: ds)
    else
      match findAndAgeDog ds n with
      | none => none
      | some (d', ds') => some (d', d :: ds')

/-- Body of the create-cat POST, as bodyParser leaves it in req.body. -/
structure SetNameBody where
  firstname : JSVal
  lastname : JSVal
  beds : JSVal
deriving Repr, DecidableEq

/-- Body of the create-dog POST. -/
structure SetDogBody where
  name : JSVal
  breed : JSVal
  age : JSVal
deriving Repr, DecidableEq

/-- hostIndex: renders the index view with the most recent cat's name, or
the literal string unknown when no cat exists or the query throws (the
catch block only logs, and the render still runs with status 200). -/
def hostIndex (dbOk : Bool) (s : StoreState) : Response × StoreState :=
  let name :=
    if dbOk then
      match mostRecentCat s.cats with
      | some doc => doc.name
      | none => "unknown"
    else "unknown"
  (Response.renderIndex 200 name, s)

/-- hostPage1: renders the cat-list view, or 500 JSON on a store error. -/
def hostPage1 (dbOk : Bool) (s : StoreState) : Response × StoreState :=
  if dbOk then (Response.renderCats 200 s.cats, s)
  else (Response.json 500 [("error", JSVal.str "failed to find cats")], s)

/-- hostPage2: renders the static page2 view. -/
def hostPage2 (s : StoreState) : Response × StoreState :=
  (Response.renderPage 200 "page2", s)

/-- hostPage3: renders the static page3 view. -/
def hostPage3 (s : StoreState) : Response × StoreState :=
  (Response.renderPage 200 "page3", s)

/-- hostPage4: renders the dog-list view, or 500 JSON on a store error. -/
def hostPage4 (dbOk : Bool) (s : StoreState) : Response × StoreState :=
  if dbOk then (Response.renderDogs 200 s.dogs, s)
  else (Response.json 500 [("error", JSVal.str "failed to find dogs")], s)

/-- getName: 200 with the most recent cat's name, 404 when no cat exists,
500 when the query throws. -/
def getName (dbOk : Bool) (s : StoreState) : Response × StoreState :=
  if dbOk then
    match mostRecentCat s.cats with
    | some doc => (Response.json 200 [("name", JSVal.str doc.name)], s)
    | none => (Response.json 404 [("error", JSVal.str "No cat found")], s)
  else
    (Response.json 500 [("error", JSVal.str "Something went wrong contacting the database")], s)

/-- setName: 400 when any of firstname, lastname, beds is falsy; otherwise
builds the cat whose name interpolates firstname, a space, and lastname,
saves it (500 on save failure or cast error), and answers 201 with the
saved name and beds. -/
def setName (body : SetNameBody) (dbOk : Bool) (s : StoreState) : Response × StoreState :=
  if !body.firstname.truthy || !body.lastname.truthy || !body.beds.truthy then
    (Response.json 400 [("error", JSVal.str "firstname, lastname and beds are all required")], s)
  else
    match castInt body.beds with
    | none => (Response.json 500 [("error", JSVal.str "failed to create cat")], s)
    | some beds =>
      if dbOk then
        (Response.json 201
          [("name", JSVal.str (jsToString body.firstname ++ " " ++ jsToString body.lastname)),
           ("beds", JSVal.num beds)],
         { s with
            cats := s.cats ++
              [{ name := jsToString body.firstname ++ " " ++ jsToString body.lastname,
                 bedsOwned := beds, createdDate := s.clock }],
            clock := s.clock + 1 })
      else
        (Response.json 500 [("error", JSVal.str "failed to create cat")], s)

/-- searchName: 400 when the name query parameter is falsy, 500 when the
query throws, 404 when no cat matches, otherwise 200 with the first
matching cat's name and beds. -/
def searchName (name : JSVal) (dbOk : Bool) (s : StoreState) : Response × StoreState :=
  if !name.truthy then
    (Response.json 400 [("error", JSVal.str "Name is required to perform a search")], s)
  else if dbOk then
    match s.cats.find? (fun c => c.name == jsToString name) with
    | none => (Response.json 404 [("error", JSVal.str "No cats found")], s)
    | some doc => (Response.json 200 [("name", JSVal.str doc.name), ("beds", JSVal.num doc.bedsOwned)], s)
  else
    (Response.json 500 [("error", JSVal.str "Something went wrong")], s)

/-- updateLast: findOneAndUpdate increments the most recent cat's beds and
the .then sends 200 with the updated document.  When the promise resolves
with null (no cat), the .then continuation dereferences null and throws in
a fresh promise chain; the .catch is attached to the original, already
resolved promise, so no response at all is emitted: the response component
is none.  When the promise rejects (store error), the .catch sends 500. -/
def updateLast (dbOk : Bool) (s : StoreState) : Option Response × StoreState :=
  if dbOk then
    match findOneAndUpdateBeds s.cats with
    | some (doc, cats') =>
      (some (Response.json 200 [("name", JSVal.str doc.name), ("beds", JSVal.num doc.bedsOwned)]),
       { s with cats := cats' })
    | none => (none, s)
  else
    (some (Response.json 500 [("error", JSVal.str "Something went wrong")]), s)

/-- setDogName: 400 when any of name, breed, age is falsy; otherwise builds
the dog, saves it (500 on save failure or cast error), and answers 201 with
its fields. -/
def setDogName (body : SetDogBody) (dbOk : Bool) (s : StoreState) : Response × StoreState :=
  if !body.name.truthy || !body.breed.truthy || !body.age.truthy then
    (Response.json 400 [("error", JSVal.str "name, breed and age are all required")], s)
  else
    match castInt body.age with
    | none => (Response.json 500 [("error", JSVal.str "failed to create dog")], s)
    | some age =>
      if dbOk then
        (Response.json 201
          [("name", JSVal.str (jsToString body.name)),
           ("breed", JSVal.str (jsToString body.breed)),
           ("age", JSVal.num age)],
         { s with dogs := s.dogs ++ [{ name := jsToString body.name, breed := jsToString body.breed, age := age }] })
      else
        (Response.json 500 [("error", JSVal.str "failed to create dog")], s)

/-- searchDogName: 400 when dogname is falsy.  Inside the try block the
query result is dereferenced (doc.age += 1) before any null check, so a
missing match throws and the catch answers 500; the later 404 branch can
only be reached with a non-null doc and never fires.  On a match the aged
document is saved and 200 returns its fields. -/
def searchDogName (dogname : JSVal) (dbOk : Bool) (s : StoreState) : Response × StoreState :=
  if !dogname.truthy then
    (Response.json 400 [("error", JSVal.str "Name is required to perform a search")], s)
  else if dbOk then
    match findAndAgeDog s.dogs (jsToString dogname) with
    | none => (Response.json 500 [("error", JSVal.str "Something went wrong")], s)
    | some (doc, dogs') =>
      (Response.json 200
        [("name", JSVal.str doc.name), ("breed", JSVal.str doc.breed), ("age", JSVal.num doc.age)],
       { s with dogs := dogs' })
  else
    (Response.json 500 [("error", JSVal.str "Something went wrong")], s)

/-- notFound: renders the not-found view with the requested path, 404. -/
def notFound (url : String) (s : StoreState) : Response × StoreState :=
  (Response.renderNotFound 404 url, s)

/-- The spec's record invariant: every stored record has a non-empty name. -/
def namesNonEmpty (s : StoreState) : Prop :=
  (∀ c ∈ s.cats, c.name ≠ "") ∧ (∀ d ∈ s.dogs, d.name ≠ "")

theorem mostRecentCat_cons_none (a : Cat) (as : List Cat) (h : mostRecentCat as = none) :
    mostRecentCat (a :: as) = some a := by
  simp [mostRecentCat, h]

theorem mostRecentCat_cons_some (a d : Cat) (as : List Cat) (h : mostRecentCat as = some d) :
    mostRecentCat (a :: as) = if d.createdDate > a.createdDate then some d else some a := by
  simp [mostRecentCat, h]

theorem findOneAndUpdateBeds_cons_none (a : Cat) (as : List Cat) (h : findOneAndUpdateBeds as = none) :
    findOneAndUpdateBeds (a :: as) =
      some ({ a with bedsOwned := a.bedsOwned + 1 }, [{ a with bedsOwned := a.bedsOwned + 1 }]) := by
  simp [findOneAndUpdateBeds, h]

theorem findOneAndUpdateBeds_cons_some (a d : Cat) (as cs' : List Cat)
    (h : findOneAndUpdateBeds as = some (d, cs')) :
    findOneAndUpdateBeds (a :: as) =
      if d.createdDate > a.createdDate then some (d, a :: cs')
      else some ({ a with bedsOwned := a.bedsOwned + 1 }, { a with bedsOwned := a.bedsOwned + 1 } :: as) := by
  simp [findOneAndUpdateBeds, h]

theorem mostRecentCat_cons (c : Cat) (cs : List Cat) :
    ∃ d, mostRecentCat (c :: cs) = some d := by
  cases hm : mostRecentCat cs with
  | none => exact ⟨c, mostRecentCat_cons_none c cs hm⟩
  | some d =>
    rw [mostRecentCat_cons_some c d cs hm]
    by_cases h : d.createdDate > c.createdDate
    · exact ⟨d, by simp [h]⟩
    · exact ⟨c, by simp [h]⟩

theorem mostRecentCat_mem_max (l : List Cat) (c : Cat) (h : mostRecentCat l = some c) :
    c ∈ l ∧ ∀ x ∈ l, x.createdDate ≤ c.createdDate := by
  induction l generalizing c with
  | nil => simp [mostRecentCat] at h
  | cons a as ih =>
    cases hm : mostRecentCat as with
    | none =>
      rw [mostRecentCat_cons_none a as hm] at h
      injection h with h
      subst h
      cases as with
      | nil => simp
      | cons b bs => exact absurd hm (by obtain ⟨d, hd⟩ := mostRecentCat_cons b bs; simp [hd])
    | some d =>
      rw [mostRecentCat_cons_some a d as hm] at h
      obtain ⟨hmem, hmax⟩ := ih d hm
      by_cases hcd : d.createdDate > a.createdDate
      · rw [if_pos hcd] at h
        injection h with h
        subst h
        refine ⟨List.mem_cons_of_mem a hmem, ?_⟩
        intro x hx
        rcases List.mem_cons.mp hx with hx | hx
        · subst hx; exact Nat.le_of_lt hcd
        · exact hmax x hx
      · rw [if_neg hcd] at h
        injection h with h
        subst h
        refine ⟨List.mem_cons_self a as, ?_⟩
        intro x hx
        rcases List.mem_cons.mp hx with hx | hx
        · subst hx; exact Nat.le_refl _
        · exact Nat.le_trans (hmax x hx) (Nat.le_of_not_lt hcd)

theorem findOneAndUpdateBeds_spec (l : List Cat) (c : Cat) (h : mostRecentCat l = some c) :
    ∃ l', findOneAndUpdateBeds l = some ({ c with bedsOwned := c.bedsOwned + 1 }, l') ∧
      mostRecentCat l' = some { c with bedsOwned := c.bedsOwned + 1 } := by
  induction l generalizing c with
  | nil => simp [mostRecentCat] at h
  | cons a as ih =>
    cases hm : mostRecentCat as with
    | none =>
      rw [mostRecentCat_cons_none a as hm] at h
      injection h with h
      subst h
      cases as with
      | nil =>
        refine ⟨[{ a with bedsOwned := a.bedsOwned + 1 }], ?_, ?_⟩
        · exact findOneAndUpdateBeds_cons_none a [] rfl
        · simp [mostRecentCat]
      | cons b bs => exact absurd hm (by obtain ⟨d, hd⟩ := mostRecentCat_cons b bs; simp [hd])
    | some d =>
      rw [mostRecentCat_cons_some a d as hm] at h
      obtain ⟨as', has', hmr'⟩ := ih d hm
      by_cases hcd : d.createdDate > a.createdDate
      · rw [if_pos hcd] at h
        injection h with h
        subst h
        refine ⟨a :: as', ?_, ?_⟩
        · rw [findOneAndUpdateBeds_cons_some a _ as as' has']
          simp [hcd]
        · rw [mostRecentCat_cons_some a _ as' hmr']
          simp [hcd]
      · rw [if_neg hcd] at h
        injection h with h
        subst h
        refine ⟨{ a with bedsOwned := a.bedsOwned + 1 } :: as, ?_, ?_⟩
        · rw [findOneAndUpdateBeds_cons_some a _ as as' has']
          simp [hcd]
        · rw [mostRecentCat_cons_some _ d as hm]
          simp [hcd]

theorem findAndAgeDog_cons_match (d : Dog) (ds : List Dog) (n : String) (h : d.name = n) :
    findAndAgeDog (d :: ds) n = some ({ d with age := d.age + 1 }, { d with age := d.age + 1 } :: ds) := by
  simp [findAndAgeDog, h]

theorem findAndAgeDog_cons_nomatch (d : Dog) (ds : List Dog) (n : String) (h : d.name ≠ n) :
    findAndAgeDog (d :: ds) n =
      match findAndAgeDog ds n with
      | none => none
      | some (d', ds') => some (d', d :: ds') := by
  simp [findAndAgeDog, h]

theorem findAndAgeDog_split (pre : List Dog) (d : Dog) (post : List Dog) (n : String)
    (hd : d.name = n) (hpre : ∀ x ∈ pre, x.name ≠ n) :
    findAndAgeDog (pre ++ d :: post) n =
      some ({ d with age := d.age + 1 }, pre ++ { d with age := d.age + 1 } :: post) := by
  induction pre with
  | nil => simpa using findAndAgeDog_cons_match d post n hd
  | cons a as ih =>
    have ha : a.name ≠ n := hpre a (List.mem_cons_self a as)
    have ih' := ih (fun x hx => hpre x (List.mem_cons_of_mem a hx))
    rw [List.cons_append, findAndAgeDog_cons_nomatch a _ n ha, ih']
    rfl

theorem findAndAgeDog_eq_none (ds : List Dog) (n : String) (h : ∀ x ∈ ds, x.name ≠ n) :
    findAndAgeDog ds n = none := by
  induction ds with
  | nil => rfl
  | cons a as ih =>
    have ha : a.name ≠ n := h a (List.mem_cons_self a as)
    rw [findAndAgeDog_cons_nomatch a as n ha, ih (fun x hx => h x (List.mem_cons_of_mem a hx))]

theorem findOneAndUpdateBeds_names (l : List Cat) (d : Cat) (l' : List Cat)
    (h : findOneAndUpdateBeds l = some (d, l')) (hn : ∀ x ∈ l, x.name ≠ "") :
    ∀ x ∈ l', x.name ≠ "" := by
  induction l generalizing d l' with
  | nil => simp [findOneAndUpdateBeds] at h
  | cons a as ih =>
    cases hm : findOneAndUpdateBeds as with
    | none =>
      rw [findOneAndUpdateBeds_cons_none a as hm] at h
      injection h with h
      rw [Prod.mk.injEq] at h
      obtain ⟨rfl, rfl⟩ := h
      intro x hx
      rcases List.mem_singleton.mp hx with rfl
      exact hn a (List.mem_cons_self a as)
    | some e =>
      obtain ⟨e, cs'⟩ := e
      rw [findOneAndUpdateBeds_cons_some a e as cs' hm] at h
      by_cases hcd : e.createdDate > a.createdDate
      · rw [if_pos hcd] at h
        injection h with h
        rw [Prod.mk.injEq] at h
        obtain ⟨rfl, rfl⟩ := h
        intro x hx
        rcases List.mem_cons.mp hx with rfl | hx
        · exact hn x (List.mem_cons_self x as)
        · exact ih e cs' hm (fun y hy => hn y (List.mem_cons_of_mem a hy)) x hx
      · rw [if_neg hcd] at h
        injection h with h
        rw [Prod.mk.injEq] at h
        obtain ⟨rfl, rfl⟩ := h
        intro x hx
        rcases List.mem_cons.mp hx with rfl | hx
        · exact hn a (List.mem_cons_self a as)
        · exact hn x (List.mem_cons_of_mem a hx)

theorem findAndAgeDog_names (ds : List Dog) (n : String) (d' : Dog) (ds' : List Dog)
    (h : findAndAgeDog ds n = some (d', ds')) (hn : ∀ x ∈ ds, x.name ≠ "") :
    ∀ x ∈ ds', x.name ≠ "" := by
  induction ds generalizing d' ds' with
  | nil => simp [findAndAgeDog] at h
  | cons a as ih =>
    by_cases ha : a.name = n
    · rw [findAndAgeDog_cons_match a as n ha] at h
      injection h with h
      rw [Prod.mk.injEq] at h
      obtain ⟨rfl, rfl⟩ := h
      intro x hx
      rcases List.mem_cons.mp hx with rfl | hx
      · exact hn a (List.mem_cons_self a as)
      · exact hn x (List.mem_cons_of_mem a hx)
    · rw [findAndAgeDog_cons_nomatch a as n ha] at h
      cases hm : findAndAgeDog as n with
      | none => rw [hm] at h; simp at h
      | some e =>
        obtain ⟨e, es⟩ := e
        rw [hm] at h
        simp only [Option.some.injEq, Prod.mk.injEq] at h
        obtain ⟨rfl, rfl⟩ := h
        intro x hx
        rcases List.mem_cons.mp hx with rfl | hx
        · exact hn x (List.mem_cons_self x as)
        · exact ih e es hm (fun y hy => hn y (List.mem_cons_of_mem a hy)) x hx

theorem natDecimalAux_length_le (fuel : Nat) : ∀ (n : Nat) (acc : List Char),
    acc.length ≤ (natDecimalAux fuel n acc).length := by
  induction fuel with
  | zero => intro n acc; exact Nat.le_refl _
  | succ fuel ih =>
    intro n acc
    simp only [natDecimalAux]
    by_cases h : n < 10
    · simp [h]
    · simp only [h, if_false]
      exact Nat.le_trans (Nat.le_succ _) (ih (n / 10) (Nat.digitChar (n % 10) :: acc))

theorem natDecimalAux_succ_length (fuel n : Nat) (acc : List Char) :
    acc.length + 1 ≤ (natDecimalAux (fuel + 1) n acc).length := by
  simp only [natDecimalAux]
  by_cases h : n < 10
  · simp [h]
  · simp only [h, if_false]
    exact natDecimalAux_length_le fuel (n / 10) (Nat.digitChar (n % 10) :: acc)

theorem natDecimal_ne_empty (n : Nat) : natDecimal n ≠ "" := by
  intro h
  have hd : (natDecimalAux (n + 1) n []).length = 0 := by
    have := congrArg String.data h
    simp only [natDecimal] at this
    rw [this]
    rfl
  have := natDecimalAux_succ_length n n []
  omega

theorem intDecimal_ne_empty (n : Int) : intDecimal n ≠ "" := by
  unfold intDecimal
  by_cases h : n < 0
  · simp only [h, if_true]
    intro he
    have := congrArg String.data he
    rw [String.data_append] at this
    simp at this
  · simp only [h, if_false]
    exact natDecimal_ne_empty _

theorem jsToString_truthy_ne_empty (v : JSVal) (h : v.truthy = true) : jsToString v ≠ "" := by
  cases v with
  | undef => simp [JSVal.truthy] at h
  | str s =>
    simp only [JSVal.truthy, bne_iff_ne, ne_eq] at h
    simpa [jsToString] using h
  | num n => exact intDecimal_ne_empty n

theorem concat_space_ne_empty (a b : String) : a ++ " " ++ b ≠ "" := by
  intro h
  have := congrArg String.data h
  rw [String.data_append, String.data_append] at this
  simp at this

/-- Claim C1 (amended): with firstname and lastname non-empty strings and
beds a nonzero integer, setName answers 201 with name equal to firstname,
a space, and lastname, and beds equal to the supplied value, and appends a
cat record carrying exactly that name. -/
theorem setName_valid_creates_cat (fn ln : String) (n : Int) (s : StoreState)
    (hfn : fn ≠ "") (hln : ln ≠ "") (hn : n ≠ 0) :
    setName { firstname := JSVal.str fn, lastname := JSVal.str ln, beds := JSVal.num n } true s =
      (Response.json 201 [("name", JSVal.str (fn ++ " " ++ ln)), ("beds", JSVal.num n)],
       { s with
          cats := s.cats ++ [{ name := fn ++ " " ++ ln, bedsOwned := n, createdDate := s.clock }],
          clock := s.clock + 1 }) ∧
    (setName { firstname := JSVal.str fn, lastname := JSVal.str ln, beds := JSVal.num n } true s).snd.cats.getLast? =
      some { name := fn ++ " " ++ ln, bedsOwned := n, createdDate := s.clock } := by
  have h1 : setName { firstname := JSVal.str fn, lastname := JSVal.str ln, beds := JSVal.num n } true s =
      (Response.json 201 [("name", JSVal.str (fn ++ " " ++ ln)), ("beds", JSVal.num n)],
       { s with
          cats := s.cats ++ [{ name := fn ++ " " ++ ln, bedsOwned := n, createdDate := s.clock }],
          clock := s.clock + 1 }) := by
    simp [setName, JSVal.truthy, jsToString, castInt, hfn, hln, hn]
  refine ⟨h1, ?_⟩
  rw [h1]
  exact List.getLast?_concat _

/-- Claim C1 counterexample: beds equal to 0 is an integer and the field is
present, yet setName answers 400 and writes nothing, because the presence
check is a truthiness check and 0 is falsy. -/
theorem setName_zero_beds_counterexample :
    setName { firstname := JSVal.str "Tom", lastname := JSVal.str "Cat", beds := JSVal.num 0 } true
        { cats := [], dogs := [], clock := 0 } =
      (Response.json 400 [("error", JSVal.str "firstname, lastname and beds are all required")],
       { cats := [], dogs := [], clock := 0 }) ∧
    (setName { firstname := JSVal.str "Tom", lastname := JSVal.str "Cat", beds := JSVal.num 0 } true
        { cats := [], dogs := [], clock := 0 }).fst ≠
      Response.json 201 [("name", JSVal.str "Tom Cat"), ("beds", JSVal.num 0)] := by
  constructor
  · rfl
  · decide

theorem setName_valid_creates_cat_witness :
    setName { firstname := JSVal.str "Tom", lastname := JSVal.str "Cat", beds := JSVal.num 3 } true
        { cats := [], dogs := [], clock := 0 } =
      (Response.json 201 [("name", JSVal.str ("Tom" ++ " " ++ "Cat")), ("beds", JSVal.num 3)],
       { cats := [{ name := "Tom" ++ " " ++ "Cat", bedsOwned := 3, createdDate := 0 }], dogs := [], clock := 1 }) :=
  (setName_valid_creates_cat "Tom" "Cat" 3 { cats := [], dogs := [], clock := 0 }
    (by decide) (by decide) (by decide)).1

/-- Claim C2: when the dogname is present (truthy) and matches a stored
dog (the first match, with no earlier dog of that name), searchDogName
answers 200 with the dog's name, breed and incremented age, and the store
afterwards holds that dog with its age exactly one greater, all other
records untouched. -/
theorem searchDogName_match_increments_age (n : String) (pre post : List Dog) (d : Dog)
    (s : StoreState) (hn : n ≠ "") (hd : d.name = n) (hpre : ∀ x ∈ pre, x.name ≠ n)
    (hdogs : s.dogs = pre ++ d :: post) :
    searchDogName (JSVal.str n) true s =
      (Response.json 200
        [("name", JSVal.str d.name), ("breed", JSVal.str d.breed), ("age", JSVal.num (d.age + 1))],
       { s with dogs := pre ++ { d with age := d.age + 1 } :: post }) := by
  have hsplit := findAndAgeDog_split pre d post n hd hpre
  have hv : (JSVal.str n).truthy = true := by simp [JSVal.truthy, hn]
  simp [searchDogName, hv, jsToString, hdogs, hsplit]

theorem searchDogName_match_increments_age_witness :
    searchDogName (JSVal.str "Rex") true
        { cats := [], dogs := [{ name := "Rex", breed := "pug", age := 4 }], clock := 0 } =
      (Response.json 200
        [("name", JSVal.str "Rex"), ("breed", JSVal.str "pug"), ("age", JSVal.num (4 + 1))],
       { cats := [], dogs := [{ name := "Rex", breed := "pug", age := 4 + 1 }], clock := 0 }) :=
  searchDogName_match_increments_age "Rex" [] [] { name := "Rex", breed := "pug", age := 4 }
    { cats := [], dogs := [{ name := "Rex", breed := "pug", age := 4 }], clock := 0 }
    (by decide) rfl (by simp) rfl

/-- Claim C3: with at least one cat stored (most recent cat c), two
successive updateLast calls answer 200 with beds c.bedsOwned + 1 and then
c.bedsOwned + 2, and afterwards the most recent cat's bedsOwned is exactly
two greater than initially. -/
theorem updateLast_twice_adds_two (s : StoreState) (c : Cat) (h : mostRecentCat s.cats = some c) :
    (updateLast true s).fst =
      some (Response.json 200 [("name", JSVal.str c.name), ("beds", JSVal.num (c.bedsOwned + 1))]) ∧
    (updateLast true (updateLast true s).snd).fst =
      some (Response.json 200 [("name", JSVal.str c.name), ("beds", JSVal.num (c.bedsOwned + 2))]) ∧
    mostRecentCat (updateLast true (updateLast true s).snd).snd.cats =
      some { c with bedsOwned := c.bedsOwned + 2 } := by
  obtain ⟨l₁, h₁, hm₁⟩ := findOneAndUpdateBeds_spec s.cats c h
  have e₁ : updateLast true s =
      (some (Response.json 200 [("name", JSVal.str c.name), ("beds", JSVal.num (c.bedsOwned + 1))]),
       { s with cats := l₁ }) := by
    simp [updateLast, h₁]
  obtain ⟨l₂, h₂, hm₂⟩ := findOneAndUpdateBeds_spec l₁ _ hm₁
  have hadd : c.bedsOwned + 1 + 1 = c.bedsOwned + 2 := by ring
  have e₂ : updateLast true { s with cats := l₁ } =
      (some (Response.json 200 [("name", JSVal.str c.name), ("beds", JSVal.num (c.bedsOwned + 2))]),
       { s with cats := l₂ }) := by
    simp only [updateLast, if_true]
    rw [h₂]
    simp [hadd]
  refine ⟨by rw [e₁], ?_, ?_⟩
  · rw [e₁, e₂]
  · rw [e₁, e₂]
    show mostRecentCat l₂ = _
    rw [hm₂]
    simp [hadd]

theorem updateLast_twice_adds_two_witness :
    (updateLast true { cats := [{ name := "Tom Cat", bedsOwned := 3, createdDate := 0 }], dogs := [], clock := 1 }).fst =
      some (Response.json 200 [("name", JSVal.str "Tom Cat"), ("beds", JSVal.num (3 + 1))]) ∧
    (updateLast true (updateLast true { cats := [{ name := "Tom Cat", bedsOwned := 3, createdDate := 0 }], dogs := [], clock := 1 }).snd).fst =
      some (Response.json 200 [("name", JSVal.str "Tom Cat"), ("beds", JSVal.num (3 + 2))]) ∧
    mostRecentCat (updateLast true (updateLast true { cats := [{ name := "Tom Cat", bedsOwned := 3, createdDate := 0 }], dogs := [], clock := 1 }).snd).snd.cats =
      some { name := "Tom Cat", bedsOwned := 3 + 2, createdDate := 0 } :=
  updateLast_twice_adds_two
    { cats := [{ name := "Tom Cat", bedsOwned := 3, createdDate := 0 }], dogs := [], clock := 1 }
    { name := "Tom Cat", bedsOwned := 3, createdDate := 0 } rfl

/-- Claim C4: a create-cat body missing any of firstname, lastname or beds
(the field absent, so undefined) gets 400 with the error body and leaves
the store state unchanged. -/
theorem setName_missing_field_400_no_write (b : SetNameBody) (ok : Bool) (s : StoreState)
    (h : b.firstname = JSVal.undef ∨ b.lastname = JSVal.undef ∨ b.beds = JSVal.undef) :
    setName b ok s =
      (Response.json 400 [("error", JSVal.str "firstname, lastname and beds are all required")], s) := by
  rcases h with h | h | h <;> simp [setName, h, JSVal.truthy]

theorem setName_missing_field_400_no_write_witness :
    setName { firstname := JSVal.undef, lastname := JSVal.str "Cat", beds := JSVal.num 3 } true
        { cats := [], dogs := [], clock := 0 } =
      (Response.json 400 [("error", JSVal.str "firstname, lastname and beds are all required")],
       { cats := [], dogs := [], clock := 0 }) :=
  setName_missing_field_400_no_write
    { firstname := JSVal.undef, lastname := JSVal.str "Cat", beds := JSVal.num 3 } true
    { cats := [], dogs := [], clock := 0 } (Or.inl rfl)

/-- Claim C5: getName answers 200 with the name of the cat of maximal
createdDate when one exists, 404 when the store holds no cat, and 500 when
the query fails. -/
theorem getName_contract (s : StoreState) (c : Cat) (h : mostRecentCat s.cats = some c) :
    (getName true s = (Response.json 200 [("name", JSVal.str c.name)], s) ∧
     c ∈ s.cats ∧ ∀ x ∈ s.cats, x.createdDate ≤ c.createdDate) ∧
    (∀ t : StoreState, t.cats = [] →
      getName true t = (Response.json 404 [("error", JSVal.str "No cat found")], t)) ∧
    (∀ t : StoreState,
      getName false t = (Response.json 500 [("error", JSVal.str "Something went wrong contacting the database")], t)) := by
  refine ⟨⟨by simp [getName, h], (mostRecentCat_mem_max _ _ h).1, (mostRecentCat_mem_max _ _ h).2⟩, ?_, ?_⟩
  · intro t ht
    simp [getName, ht, mostRecentCat]
  · intro t
    simp [getName]

theorem getName_contract_witness :
    getName true { cats := [{ name := "A", bedsOwned := 1, createdDate := 0 },
                            { name := "B", bedsOwned := 5, createdDate := 3 }], dogs := [], clock := 4 } =
      (Response.json 200 [("name", JSVal.str "B")],
       { cats := [{ name := "A", bedsOwned := 1, createdDate := 0 },
                  { name := "B", bedsOwned := 5, createdDate := 3 }], dogs := [], clock := 4 }) :=
  (getName_contract
    { cats := [{ name := "A", bedsOwned := 1, createdDate := 0 },
               { name := "B", bedsOwned := 5, createdDate := 3 }], dogs := [], clock := 4 }
    { name := "B", bedsOwned := 5, createdDate := 3 } rfl).1.1

/-- Claim C6: hostIndex always answers 200 rendering the index view, with
the most recent cat's name when one exists, and with the literal string
unknown when the store is empty or the query fails. -/
theorem hostIndex_contract (s : StoreState) (c : Cat) (h : mostRecentCat s.cats = some c) :
    hostIndex true s = (Response.renderIndex 200 c.name, s) ∧
    (∀ t : StoreState, t.cats = [] → hostIndex true t = (Response.renderIndex 200 "unknown", t)) ∧
    (∀ t : StoreState, hostIndex false t = (Response.renderIndex 200 "unknown", t)) := by
  refine ⟨by simp [hostIndex, h], ?_, ?_⟩
  · intro t ht
    simp [hostIndex, ht, mostRecentCat]
  · intro t
    simp [hostIndex]

theorem hostIndex_contract_witness :
    hostIndex true { cats := [{ name := "B", bedsOwned := 5, createdDate := 3 }], dogs := [], clock := 4 } =
      (Response.renderIndex 200 "B",
       { cats := [{ name := "B", bedsOwned := 5, createdDate := 3 }], dogs := [], clock := 4 }) :=
  (hostIndex_contract
    { cats := [{ name := "B", bedsOwned := 5, createdDate := 3 }], dogs := [], clock := 4 }
    { name := "B", bedsOwned := 5, createdDate := 3 } rfl).1

/-- Claim C8: a present (truthy) dogname matching no stored dog gets 500,
because the null query result is dereferenced inside the try block before
the null check; and no input whatsoever makes searchDogName answer 404. -/
theorem searchDogName_no_match_500_never_404 (v : JSVal) (s : StoreState) (hv : v.truthy = true)
    (hnm : ∀ x ∈ s.dogs, x.name ≠ jsToString v) :
    searchDogName v true s = (Response.json 500 [("error", JSVal.str "Something went wrong")], s) ∧
    ∀ (w : JSVal) (ok : Bool) (t : StoreState) (b : List (String × JSVal)),
      (searchDogName w ok t).fst ≠ Response.json 404 b := by
  constructor
  · simp [searchDogName, hv, findAndAgeDog_eq_none s.dogs (jsToString v) hnm]
  · intro w ok t b
    simp only [searchDogName]
    split
    · simp
    · split
      · cases hm : findAndAgeDog t.dogs (jsToString w) with
        | none => simp
        | some p => obtain ⟨d', ds'⟩ := p; simp
      · simp

theorem searchDogName_no_match_500_never_404_witness :
    searchDogName (JSVal.str "Zed") true
        { cats := [], dogs := [{ name := "Fido", breed := "lab", age := 2 }], clock := 0 } =
      (Response.json 500 [("error", JSVal.str "Something went wrong")],
       { cats := [], dogs := [{ name := "Fido", breed := "lab", age := 2 }], clock := 0 }) :=
  (searchDogName_no_match_500_never_404 (JSVal.str "Zed")
    { cats := [], dogs := [{ name := "Fido", breed := "lab", age := 2 }], clock := 0 }
    (by decide) (by decide)).1

/-- Claim C9: with zero cats stored and the store reachable, updateLast
emits no response at all: the fulfilled promise's continuation throws on
the null document and the catch attached to the original promise never
runs, so the response component is none. -/
theorem updateLast_empty_store_no_response (s : StoreState) (h : s.cats = []) :
    updateLast true s = (none, s) := by
  simp [updateLast, h, findOneAndUpdateBeds]

theorem updateLast_empty_store_no_response_witness :
    updateLast true { cats := [], dogs := [], clock := 0 } = (none, { cats := [], dogs := [], clock := 0 }) :=
  updateLast_empty_store_no_response { cats := [], dogs := [], clock := 0 } rfl

/-- Claim C10: the presence checks are truthiness checks, so a present
beds field equal to 0 makes setName answer 400 with no write, and a
present age field equal to 0 makes setDogName answer 400 with no write,
whatever the other fields and whether the store works. -/
theorem zero_valued_fields_rejected :
    (∀ (f l : JSVal) (ok : Bool) (s : StoreState),
      setName { firstname := f, lastname := l, beds := JSVal.num 0 } ok s =
        (Response.json 400 [("error", JSVal.str "firstname, lastname and beds are all required")], s)) ∧
    (∀ (nm br : JSVal) (ok : Bool) (s : StoreState),
      setDogName { name := nm, breed := br, age := JSVal.num 0 } ok s =
        (Response.json 400 [("error", JSVal.str "name, breed and age are all required")], s)) := by
  constructor
  · intro f l ok s
    simp [setName, JSVal.truthy]
  · intro nm br ok s
    simp [setDogName, JSVal.truthy]

theorem getName_state (ok : Bool) (s : StoreState) : (getName ok s).snd = s := by
  cases ok
  · simp [getName]
  · simp only [getName, if_true]
    cases mostRecentCat s.cats <;> simp

theorem hostIndex_state (ok : Bool) (s : StoreState) : (hostIndex ok s).snd = s := by
  simp [hostIndex]

theorem searchName_state (v : JSVal) (ok : Bool) (s : StoreState) : (searchName v ok s).snd = s := by
  simp only [searchName]
  split
  · rfl
  · split
    · cases s.cats.find? (fun c => c.name == jsToString v) <;> simp
    · rfl

theorem setName_cats (b : SetNameBody) (ok : Bool) (s : StoreState) :
    (setName b ok s).snd = s ∨
    ∃ beds, (setName b ok s).snd =
      { s with
        cats := s.cats ++ [{ name := jsToString b.firstname ++ " " ++ jsToString b.lastname,
                             bedsOwned := beds, createdDate := s.clock }],
        clock := s.clock + 1 } := by
  simp only [setName]
  split
  · exact Or.inl rfl
  · cases castInt b.beds with
    | none => exact Or.inl rfl
    | some beds =>
      cases ok
      · exact Or.inl rfl
      · exact Or.inr ⟨beds, rfl⟩

theorem setDogName_dogs (b : SetDogBody) (ok : Bool) (s : StoreState) :
    (setDogName b ok s).snd = s ∨
    (b.name.truthy = true ∧ ∃ age, (setDogName b ok s).snd =
      { s with dogs := s.dogs ++ [{ name := jsToString b.name, breed := jsToString b.breed, age := age }] }) := by
  simp only [setDogName]
  split
  · exact Or.inl rfl
  · rename_i hguard
    have hname : b.name.truthy = true := by
      by_contra hc
      simp only [Bool.not_eq_true] at hc
      simp [hc] at hguard
    cases castInt b.age with
    | none => exact Or.inl rfl
    | some age =>
      cases ok
      · exact Or.inl rfl
      · exact Or.inr ⟨hname, age, rfl⟩

/-- Claim C7: the invariant that every stored record has a non-empty name
is preserved by every handler: the create operations only insert records
with non-empty names (a cat name always contains the separating space, a
dog name interpolates a truthy value), the two increment operations keep
every name, and the remaining handlers leave the store untouched. -/
theorem nonempty_name_invariant_preserved (s : StoreState) (h : namesNonEmpty s) :
    (∀ (b : SetNameBody) (ok : Bool), namesNonEmpty (setName b ok s).snd) ∧
    (∀ (b : SetDogBody) (ok : Bool), namesNonEmpty (setDogName b ok s).snd) ∧
    (∀ ok : Bool, namesNonEmpty (updateLast ok s).snd) ∧
    (∀ (v : JSVal) (ok : Bool), namesNonEmpty (searchDogName v ok s).snd) ∧
    (∀ (v : JSVal) (ok : Bool), namesNonEmpty (searchName v ok s).snd) ∧
    (∀ ok : Bool, namesNonEmpty (getName ok s).snd) ∧
    (∀ ok : Bool, namesNonEmpty (hostIndex ok s).snd) ∧
    (∀ ok : Bool, namesNonEmpty (hostPage1 ok s).snd) ∧
    namesNonEmpty (hostPage2 s).snd ∧
    namesNonEmpty (hostPage3 s).snd ∧
    (∀ ok : Bool, namesNonEmpty (hostPage4 ok s).snd) ∧
    (∀ u : String, namesNonEmpty (notFound u s).snd) := by
  obtain ⟨hcats, hdogs⟩ := h
  refine ⟨?_, ?_, ?_, ?_, ?_, ?_, ?_, ?_, ⟨hcats, hdogs⟩, ⟨hcats, hdogs⟩, ?_, ?_⟩
  · intro b ok
    rcases setName_cats b ok s with he | ⟨beds, he⟩
    · rw [he]; exact ⟨hcats, hdogs⟩
    · rw [he]
      refine ⟨?_, hdogs⟩
      intro x hx
      rcases List.mem_append.mp hx with hx | hx
      · exact hcats x hx
      · rcases List.mem_singleton.mp hx with rfl
        exact concat_space_ne_empty _ _
  · intro b ok
    rcases setDogName_dogs b ok s with he | ⟨hname, age, he⟩
    · rw [he]; exact ⟨hcats, hdogs⟩
    · rw [he]
      refine ⟨hcats, ?_⟩
      intro x hx
      rcases List.mem_append.mp hx with hx | hx
      · exact hdogs x hx
      · rcases List.mem_singleton.mp hx with rfl
        exact jsToString_truthy_ne_empty b.name hname
  · intro ok
    cases ok
    · simp only [updateLast, Bool.false_eq_true, if_false]
      exact ⟨hcats, hdogs⟩
    · simp only [updateLast, if_true]
      cases hm : findOneAndUpdateBeds s.cats with
      | none => exact ⟨hcats, hdogs⟩
      | some p =>
        obtain ⟨d, l'⟩ := p
        exact ⟨findOneAndUpdateBeds_names s.cats d l' hm hcats, hdogs⟩
  · intro v ok
    cases ok
    · simp only [searchDogName]
      split
      · exact ⟨hcats, hdogs⟩
      · simp only [Bool.false_eq_true, if_false]
        exact ⟨hcats, hdogs⟩
    · simp only [searchDogName]
      split
      · exact ⟨hcats, hdogs⟩
      · simp only [if_true]
        cases hm : findAndAgeDog s.dogs (jsToString v) with
        | none => exact ⟨hcats, hdogs⟩
        | some p =>
          obtain ⟨d', ds'⟩ := p
          exact ⟨hcats, findAndAgeDog_names s.dogs (jsToString v) d' ds' hm hdogs⟩
  · intro v ok
    rw [searchName_state]
    exact ⟨hcats, hdogs⟩
  · intro ok
    rw [getName_state]
    exact ⟨hcats, hdogs⟩
  · intro ok
    rw [hostIndex_state]
    exact ⟨hcats, hdogs⟩
  · intro ok
    cases ok
    · simp only [hostPage1, Bool.false_eq_true, if_false]
      exact ⟨hcats, hdogs⟩
    · simp only [hostPage1, if_true]
      exact ⟨hcats, hdogs⟩
  · intro ok
    cases ok
    · simp only [hostPage4, Bool.false_eq_true, if_false]
      exact ⟨hcats, hdogs⟩
    · simp only [hostPage4, if_true]
      exact ⟨hcats, hdogs⟩
  · intro u
    exact ⟨hcats, hdogs⟩

theorem nonempty_name_invariant_preserved_witness :
    namesNonEmpty (setName { firstname := JSVal.str "Tom", lastname := JSVal.str "Cat", beds := JSVal.num 3 } true
      { cats := [], dogs := [], clock := 0 }).snd :=
  (nonempty_name_invariant_preserved { cats := [], dogs := [], clock := 0 }
    ⟨by simp, by simp⟩).1
    { firstname := JSVal.str "Tom", lastname := JSVal.str "Cat", beds := JSVal.num 3 } true
